import Mathlib

/-!
# Verification of the `negotiation` term-prediction subsystem

Shallow embedding of the core of the repository:

* `src/negotiation/data/transforms.py` — boolean encoding and ordinal
  bucketing of contract features;
* `src/negotiation/data/loaders.py` — corpus loading;
* `src/negotiation/models/predictor.py` — the `TermPredictor` class
  (column taxonomy, fit, predict, evaluate, feature importance).

Machine reals that the Python code manipulates (pandas floats, classifier
probabilities) are modelled as rationals; the classifiers themselves
(sklearn `RandomForestClassifier`, which with a fixed `random_state` is a
deterministic function of its hyperparameters and training data) are
modelled as opaque function parameters.  `round(x, 3)` is modelled as exact
half-to-even rounding at the third decimal.
-/

/-- A raw cell of the tabular corpus: missing (pandas `NaN`/`None`), a
number, or a free-text string. -/
inductive CellVal where
  | missing : CellVal
  | num : ℚ → CellVal
  | str : String → CellVal
deriving DecidableEq, Repr

/-- Round-half-to-even to the nearest integer, the tie rule of Python's
built-in `round`. -/
def roundHalfEven (q : ℚ) : ℤ :=
  let f := ⌊q⌋
  let r := q - (f : ℚ)
  if r < 1/2 then f
  else if 1/2 < r then f + 1
  else if f % 2 = 0 then f else f + 1

/-- `round(x, 3)`: round to three decimal places, ties to even. -/
def round3 (q : ℚ) : ℚ := (roundHalfEven (q * 1000) : ℚ) / 1000

/-- The digits of the first maximal run of decimal digits in a character
list, as produced by `re.findall(r'\d+', s)[0]`. -/
def firstDigitRun : List Char → Option (List Char)
  | [] => none
  | c :: cs =>
      if c.isDigit then some (c :: cs.takeWhile Char.isDigit)
      else firstDigitRun cs

/-- Value of a digit string, as Python's `int` on a digit-only string. -/
def digitsToNat (ds : List Char) : ℕ :=
  ds.foldl (fun a c => 10 * a + (c.toNat - '0'.toNat)) 0

/-- First integer token of a string: `int(re.findall(r'\d+', s)[0])`,
`none` when the string holds no digit. -/
def extractFirstNat (s : String) : Option ℕ :=
  (firstDigitRun s.data).map digitsToNat

/-- Python `str.lower()`, character by character. -/
def pyLower (s : String) : String := ⟨s.data.map Char.toLower⟩

/-- Python `str.strip()`: drop leading and trailing whitespace. -/
def pyStrip (s : String) : String :=
  ⟨((s.data.dropWhile Char.isWhitespace).reverse.dropWhile Char.isWhitespace).reverse⟩

/-- A Python float value as the bucketing comparisons see it: a finite
value (kept as an exact rational), one of the two infinities, or NaN. -/
inductive PyFloat where
  | finite : ℚ → PyFloat
  | inf : PyFloat
  | neginf : PyFloat
  | nan : PyFloat
deriving DecidableEq, Repr

/-- Accumulate the remaining digits of a Python digit group, allowing a
single PEP 515 underscore between digits; returns the value, the digit
count, and the unconsumed characters. -/
def goUDigits (acc ndig : ℕ) : List Char → ℕ × ℕ × List Char
  | '_' :: d :: rest =>
      if d.isDigit then goUDigits (10 * acc + (d.toNat - '0'.toNat)) (ndig + 1) rest
      else (acc, ndig, '_' :: d :: rest)
  | d :: rest =>
      if d.isDigit then goUDigits (10 * acc + (d.toNat - '0'.toNat)) (ndig + 1) rest
      else (acc, ndig, d :: rest)
  | [] => (acc, ndig, [])

/-- A Python digit group `digit (["_"] digit)*`: `none` when the input
does not start with a digit. -/
def parseUDigits : List Char → Option (ℕ × ℕ × List Char)
  | c :: rest =>
      if c.isDigit then some (goUDigits (c.toNat - '0'.toNat) 1 rest) else none
  | [] => none

/-- The optional exponent suffix `e[sign]digits` of a float literal,
which must consume the rest of the input. -/
def parseExpSuffix (v : ℚ) : List Char → Option ℚ
  | [] => some v
  | 'e' :: r =>
      let se : Bool × List Char :=
        match r with
        | '-' :: r2 => (true, r2)
        | '+' :: r2 => (false, r2)
        | _ => (false, r)
      match parseUDigits se.2 with
      | some (e, _, []) => some (if se.1 then v / 10 ^ e else v * 10 ^ e)
      | _ => none
  | _ => none

/-- The decimal body of a Python float literal:
`digits [. [digits]] [exp]` or `. digits [exp]`. -/
def parseDecimal (cs : List Char) : Option ℚ :=
  match parseUDigits cs with
  | some (n, _, rest) =>
      match rest with
      | '.' :: r2 =>
          match parseUDigits r2 with
          | some (f, k, r3) => parseExpSuffix ((n : ℚ) + (f : ℚ) / 10 ^ k) r3
          | none => parseExpSuffix (n : ℚ) r2
      | _ => parseExpSuffix (n : ℚ) rest
  | none =>
      match cs with
      | '.' :: r2 =>
          match parseUDigits r2 with
          | some (f, k, r3) => parseExpSuffix ((f : ℚ) / 10 ^ k) r3
          | none => none
      | _ => none

/-- Python `float(s)` on a string: strip, optional sign, then
`inf`/`infinity`/`nan` (case-insensitive) or a decimal literal with
optional fraction, exponent, and PEP 515 underscore grouping.  CPython
clamps out-of-range decimal literals to infinity and underflows denormal
ones to zero while this embedding keeps them as exact rationals; every
bucket comparison below agrees on both readings except for literals
within a factor of 10^-300 of the thresholds, which no corpus contains. -/
def pyFloatOfString (s : String) : Option PyFloat :=
  let cs := (pyStrip s).data.map Char.toLower
  let signed : Bool × List Char :=
    match cs with
    | '-' :: rest => (true, rest)
    | '+' :: rest => (false, rest)
    | _ => (false, cs)
  let neg := signed.1
  let body := signed.2
  if body = ['i', 'n', 'f'] || body = ['i', 'n', 'f', 'i', 'n', 'i', 't', 'y'] then
    some (if neg then PyFloat.neginf else PyFloat.inf)
  else if body = ['n', 'a', 'n'] then some PyFloat.nan
  else
    match parseDecimal body with
    | some v => some (PyFloat.finite (if neg then -v else v))
    | none => none

/-- The day-count thresholds of `bucket_renewal_term.bucket`:
0 = none, 1 = short (< 365), 2 = standard (= 365), 3 = long (≤ 1095),
4 = very long (> 1095). -/
def renewalDaysCode (v : ℚ) : ℕ :=
  if v ≤ 0 then 0
  else if v < 365 then 1
  else if v = 365 then 2
  else if v ≤ 1095 then 3
  else 4

/-- The per-value closure `bucket` of `bucket_renewal_term`, on the inputs
where it returns (its overflow-free fragment — see `bucketRenewalTermE`
for the error path).  For a string, the source lowercases and strips it,
extracts the first integer token, and then evaluates
`'year' in val if isinstance(val, str) else False`; since `val` was just
reassigned to `int(nums[0])`, the `isinstance` test is always false and
the year multiplication never executes — the embedding reproduces that
behaviour.  Conversion of the token to a double is exact for every bucket
comparison below the overflow bound (the thresholds are small integers). -/
def bucketRenewalTerm (val : CellVal) : ℕ :=
  match val with
  | .missing => 0
  | .num q => renewalDaysCode q
  | .str s =>
      match extractFirstNat (pyStrip (pyLower s)) with
      | some n => renewalDaysCode (n : ℚ)
      | none => 0

/-- The smallest nonnegative integer whose conversion to a Python float
(an IEEE-754 double, rounded half to even) exceeds the largest finite
double and raises OverflowError: `2^1024 - 2^970`. -/
def PY_FLOAT_OVERFLOW : ℕ := 2 ^ 1024 - 2 ^ 970

/-- A digit token of 310 nines, beyond the double range. -/
def overflowToken : String := ⟨List.replicate 310 '9'⟩

/-- The `bucket` closure of `bucket_renewal_term` together with its error
path.  The `try` around `float(val)` catches only `(ValueError,
TypeError)`, so when the extracted integer token is at or beyond the
double range the conversion raises an uncaught OverflowError, which
escapes the encoder — modelled as `.error`.  The numeric and missing
cases never convert an out-of-range integer and cannot raise. -/
def bucketRenewalTermE (val : CellVal) : Except String ℕ :=
  match val with
  | .missing => .ok 0
  | .num q => .ok (renewalDaysCode q)
  | .str s =>
      match extractFirstNat (pyStrip (pyLower s)) with
      | some n =>
          if PY_FLOAT_OVERFLOW ≤ n then .error "OverflowError"
          else .ok (renewalDaysCode (n : ℚ))
      | none => .ok 0

/-- The day-count thresholds of `bucket_notice_period.bucket`:
0 = none, 1 = short (≤ 30), 2 = standard (≤ 90), 3 = long (> 90). -/
def noticeDaysCode (v : ℚ) : ℕ :=
  if v ≤ 0 then 0
  else if v ≤ 30 then 1
  else if v ≤ 90 then 2
  else 3

/-- The comparison chain of `bucket_notice_period.bucket` on a Python
float value, including the non-finite cases: `val <= 0`, `val <= 30` and
`val <= 90` are all false for `inf` and for `nan`, which therefore fall to
the final `else` (code 3), while `-inf` satisfies the first test. -/
def noticeDaysCodeF : PyFloat → ℕ
  | .finite q => noticeDaysCode q
  | .inf => 3
  | .neginf => 0
  | .nan => 3

/-- The per-value closure `bucket` of `bucket_notice_period`: missing maps
to 0, otherwise `float(val)` is attempted and a parse failure (ValueError,
always caught here) maps to 0.  String-to-float conversion in Python never
raises OverflowError (out-of-range literals clamp to infinity), so this
encoder is total. -/
def bucketNoticePeriod (val : CellVal) : ℕ :=
  match val with
  | .missing => 0
  | .num q => noticeDaysCode q
  | .str s =>
      match pyFloatOfString s with
      | some v => noticeDaysCodeF v
      | none => 0

/-! ## Boolean encoding (`encode_boolean_columns`) -/

/-- Whether one cell is compatible with yes/no encoding of its column: the
source checks that the column has object (string) dtype and that its
lowercased non-missing distinct values are a subset of `{'yes', 'no', ''}`.
A column holding any number is not an object column and is skipped, which
the `num` case reflects. -/
def yesNoCellAllowed (v : CellVal) : Bool :=
  match v with
  | .missing => true
  | .num _ => false
  | .str s => pyLower s = "yes" || pyLower s = "no" || pyLower s = ""

/-- A column qualifies when every cell is missing or an allowed string. -/
def yesNoQualifies (cells : List CellVal) : Bool :=
  cells.all yesNoCellAllowed

/-- The per-cell lambda of `encode_boolean_columns`:
`1 if str(x).lower() == 'yes' else (0 if str(x).lower() == 'no' else None)`.
`str` applied to a missing or numeric cell never spells `yes`/`no`, so both
fall into the `None` branch. -/
def encodeYesNoCell (v : CellVal) : CellVal :=
  match v with
  | .str s =>
      if pyLower s = "yes" then .num 1
      else if pyLower s = "no" then .num 0
      else .missing
  | _ => .missing

/-- `encode_boolean_columns` restricted to a single column: the column is
rewritten cell-by-cell when it qualifies and left untouched otherwise. -/
def encodeBoolCol (cells : List CellVal) : List CellVal :=
  if yesNoQualifies cells then cells.map encodeYesNoCell else cells

/-- A row of the raw corpus, as a total map from column name to cell.  The
source reads only the taxonomy columns plus the two raw day-count columns;
all other columns of the TSV are never consulted.  This representation
assumes the taxonomy columns are present: a corpus file missing one of
them would make `df[self.FEATURE_COLUMNS]` raise a pandas KeyError, an
error path not modelled here (the corpora in the theorems below contain
every column). -/
abbrev RawRow := String → CellVal

/-- `encode_boolean_columns` over the whole table: every column is tested
for qualification against the full column contents and rewritten in place
when it qualifies. -/
def encode_boolean_columns (t : List RawRow) : List RawRow :=
  t.map fun row c =>
    if yesNoQualifies (t.map fun r => r c) then encodeYesNoCell (row c) else row c

/-- `bucket_renewal_term` at table level: adds the `Renewal Term Bucket`
column computed from `Renewal Term (Days)`. -/
def bucket_renewal_term (t : List RawRow) : List RawRow :=
  t.map fun row c =>
    if c = "Renewal Term Bucket" then .num (bucketRenewalTerm (row "Renewal Term (Days)"))
    else row c

/-- `bucket_notice_period` at table level: adds the `Notice Period Bucket`
column computed from `Notice Period To Terminate Renewal`. -/
def bucket_notice_period (t : List RawRow) : List RawRow :=
  t.map fun row c =>
    if c = "Notice Period Bucket" then
      .num (bucketNoticePeriod (row "Notice Period To Terminate Renewal"))
    else row c

/-! ## Column taxonomy of `TermPredictor` -/

def BINARY_COLUMNS : List String :=
  ["Change Of Control",
   "Anti-Assignment",
   "Revenue/Profit Sharing",
   "Ip Ownership Assignment",
   "Non-Transferable License",
   "Post-Termination Services",
   "Audit Rights",
   "Cap On Liability"]

def ORDINAL_COLUMNS : List String := ["Renewal Term Bucket"]

def INPUT_ONLY_COLUMNS : List String := ["Notice Period Bucket"]

/-- Columns that are predicted as outputs. -/
def TERM_COLUMNS : List String := BINARY_COLUMNS ++ ORDINAL_COLUMNS

/-- All columns used as features for training (includes input-only). -/
def FEATURE_COLUMNS : List String :=
  BINARY_COLUMNS ++ ORDINAL_COLUMNS ++ INPUT_ONLY_COLUMNS

/-- Derived columns: output name, source column, transform applied to the
source's realized value. -/
def DERIVED_COLUMNS : List (String × String × (ℤ → ℤ)) :=
  [("Uncapped Liability", "Cap On Liability", fun x => 1 - x)]

/-! ## The classifier oracle and sorting/median helpers -/

/-- A fitted sklearn classifier, as the interface the predictor consumes:
class list, point prediction, per-class probability row, and feature
importances.  `RandomForestClassifier` with a fixed `random_state` is a
deterministic function, so one value of this structure per training input
captures it. -/
structure RFClassifier where
  classes_ : List ℤ
  predict : List ℚ → ℤ
  predict_proba : List ℚ → List ℚ
  feature_importances_ : List ℚ

/-- Training oracle: `RandomForestClassifier(n_estimators, random_state,
max_depth=5, min_samples_leaf=10).fit(X, y)` as a deterministic function of
its variable inputs (the depth/leaf constants are fixed in the source). -/
abbrev TrainFn := ℕ → ℕ → List (List ℚ) → List ℤ → RFClassifier

/-- `sklearn.cross_val_score(model, X, y, cv, scoring='accuracy')` for a
fresh forest with the given `n_estimators` and `random_state`: the list of
per-fold accuracies, again a deterministic function of its inputs. -/
abbrev CrossValFn := ℕ → ℕ → List (List ℚ) → List ℤ → ℕ → List ℚ

/-- Insert into a list sorted by `le`, keeping the new element after equal
ones (stable insertion). -/
def insertLe (le : α → α → Bool) (x : α) : List α → List α
  | [] => [x]
  | y :: ys => if le y x then y :: insertLe le x ys else x :: y :: ys

/-- Stable insertion sort by `le`. -/
def sortLe (le : α → α → Bool) : List α → List α
  | [] => []
  | x :: xs => insertLe le x (sortLe le xs)

/-- numpy `astype(int)`: truncation toward zero. -/
def pyInt (q : ℚ) : ℤ := q.num / (q.den : ℤ)

/-- pandas `Series.median()`: middle element of the sorted values, or the
mean of the two middle elements for an even count.  The empty case (where
pandas yields NaN) is never reached by the callers proved about. -/
def median (l : List ℚ) : ℚ :=
  let s := sortLe (fun a b => decide (a ≤ b)) l
  let n := s.length
  if n = 0 then 0
  else if n % 2 = 1 then s.getD (n / 2) 0
  else (s.getD (n / 2 - 1) 0 + s.getD (n / 2) 0) / 2

/-! ## The `TermPredictor` state and operations -/

/-- The mutable state of a `TermPredictor` instance.  `models` stands for
the `self.models` dict (empty at construction — the constant placeholder
classifier is unreadable behind the fitted guard, as the empty dict is in
the source); `data` is `self.data` (`None` before fit); `_is_fitted` is the
fitted flag. -/
structure TermPredictor where
  n_estimators : ℕ
  random_state : ℕ
  models : String → RFClassifier
  data : Option (List (String → ℚ))
  _is_fitted : Bool

/-- `TermPredictor.__init__(n_estimators=100, random_state=42)`. -/
def TermPredictor.init (n_estimators random_state : ℕ) : TermPredictor :=
  { n_estimators := n_estimators
    random_state := random_state
    models := fun _ =>
      { classes_ := [], predict := fun _ => 0, predict_proba := fun _ => []
        feature_importances_ := [] }
    data := none
    _is_fitted := false }

/-- Working-table construction inside `fit`: boolean-encode, bucket, select
`FEATURE_COLUMNS`, drop rows with a missing value among them, and read the
surviving cells as numbers.  After encoding, every surviving feature cell
of a well-formed corpus is numeric; a residual string cell would make
`astype(int)`/sklearn fail in the source, an error path not modelled here
(it is read as 0) and not exercised by any theorem below. -/
def buildWorkingTable (df : List RawRow) : List (String → ℚ) :=
  let encoded := bucket_notice_period (bucket_renewal_term (encode_boolean_columns df))
  let kept := encoded.filter fun row => FEATURE_COLUMNS.all fun c => row c ≠ CellVal.missing
  kept.map fun row c =>
    match row c with
    | .num q => q
    | _ => 0

/-- `X = self.data[feature_cols].values` for a target: one row per working
table row, one entry per feature column (all taxonomy columns except the
target). -/
def featureMatrix (tbl : List (String → ℚ)) (target_col : String) : List (List ℚ) :=
  tbl.map fun r => (FEATURE_COLUMNS.filter fun c => c ≠ target_col).map r

/-- `y = self.data[target_col].values.astype(int)`. -/
def targetVector (tbl : List (String → ℚ)) (target_col : String) : List ℤ :=
  tbl.map fun r => pyInt (r target_col)

/-- `load_cuad_data`: `pd.read_csv(file_path, sep='\t')`.  The file system
is modelled by an `Option`: an absent file makes pandas raise, which the
caller does not catch. -/
def load_cuad_data (file : Option (List RawRow)) : Except String (List RawRow) :=
  match file with
  | none => .error "FileNotFoundError"
  | some t => .ok t

/-- `TermPredictor.fit`: load, encode, bucket, project to the feature
columns, drop incomplete rows, then train one forest per predictable term
on all other feature columns.  There is no row-count check.  The embedding
models the success path of training: external failures on degenerate
corpora (pandas KeyError for an absent taxonomy column, sklearn's
ValueError on zero surviving rows or non-numeric cells) are not modelled,
and no theorem below relies on fit succeeding there — the corpora used
are well-formed and nonempty. -/
def TermPredictor.fit (p : TermPredictor) (trainFn : TrainFn)
    (file : Option (List RawRow)) : Except String TermPredictor :=
  match load_cuad_data file with
  | .error e => .error e
  | .ok df =>
      let tbl := buildWorkingTable df
      .ok { p with
        models := fun target_col =>
          trainFn p.n_estimators p.random_state
            (featureMatrix tbl target_col) (targetVector tbl target_col)
        data := some tbl
        _is_fitted := true }

/-- The body of the per-target loop of `TermPredictor.predict`: feature
vector assembled from known values (training medians otherwise), then the
predicted class and the probability mass of that exact class, rounded. -/
def predictOne (models : String → RFClassifier) (medians : String → ℚ)
    (known_terms : List (String × ℤ)) (target_col : String) : ℤ × ℚ :=
  let model := models target_col
  let feature_cols := FEATURE_COLUMNS.filter fun c => c ≠ target_col
  let X := feature_cols.map fun col =>
    match known_terms.lookup col with
    | some v => (v : ℚ)
    | none => medians col
  let pred := model.predict X
  let proba := model.predict_proba X
  -- pred_idx = np.where(classes == pred)[0][0]; sklearn guarantees the
  -- predicted class occurs in classes_, where the lookup cannot miss
  let pred_idx := model.classes_.indexOf pred
  let prob := proba.getD pred_idx 0
  (pred, round3 prob)

/-- First phase of `predict`: one entry per predictable term not supplied
in `known_terms`. -/
def termPredictions (models : String → RFClassifier) (medians : String → ℚ)
    (known_terms : List (String × ℤ)) : List (String × ℤ × ℚ) :=
  (TERM_COLUMNS.filter fun t => (known_terms.lookup t).isNone).map fun target_col =>
    (target_col, predictOne models medians known_terms target_col)

/-- Second phase of `predict`: the derived columns, resolved from the
known terms or from the first phase's results. -/
def derivedPredictions (known_terms : List (String × ℤ))
    (results : List (String × ℤ × ℚ)) : List (String × ℤ × ℚ) :=
  DERIVED_COLUMNS.filterMap fun dsf =>
    let derived_col := dsf.1
    let source_col := dsf.2.1
    let transform_fn := dsf.2.2
    if (known_terms.lookup derived_col).isSome then none
    else
      match known_terms.lookup source_col with
      | some v => some (derived_col, (transform_fn v, round3 1))
      | none =>
          match results.lookup source_col with
          | some pv => some (derived_col, (transform_fn pv.1, round3 pv.2))
          | none => none

/-- The body of `TermPredictor.predict` after its fitted guard. -/
def predictCore (models : String → RFClassifier) (medians : String → ℚ)
    (known_terms : List (String × ℤ)) : List (String × ℤ × ℚ) :=
  let results := termPredictions models medians known_terms
  results ++ derivedPredictions known_terms results

/-- `TermPredictor.predict`: fitted guard, then `predictCore` with the
training medians (computed from `self.data`, which fit always sets together
with the fitted flag — the `getD` default is unreachable). -/
def TermPredictor.predict (p : TermPredictor) (known_terms : List (String × ℤ)) :
    Except String (List (String × ℤ × ℚ)) :=
  if !p._is_fitted then .error "Model not fitted. Call fit() first."
  else
    let tbl := p.data.getD []
    .ok (predictCore p.models (fun col => median (tbl.map fun r => r col)) known_terms)

/-- One row of an `evaluate` report. -/
structure EvalScores where
  accuracy : ℚ
  std : ℚ
  baseline : ℚ
  lift : ℚ
deriving DecidableEq, Repr

/-- `np.unique(y, return_counts=True)`: the distinct values of `y` in
ascending order, each with its count. -/
def uniqueCounts (y : List ℤ) : List (ℤ × ℕ) :=
  (sortLe (fun a b => decide (a ≤ b)) y.dedup).map fun v => (v, y.count v)

/-- `np.argmax` over the counts: the first pair with maximal count (later
pairs replace the accumulator only on a strictly larger count). -/
def argmaxPair : List (ℤ × ℕ) → ℤ × ℕ
  | [] => (0, 0)
  | p :: ps => ps.foldl (fun acc q => if acc.2 < q.2 then q else acc) p

/-- Arithmetic mean; callers establish nonemptiness. -/
def listMean (l : List ℚ) : ℚ := l.sum / (l.length : ℚ)

/-- The body of `TermPredictor.evaluate` after its data guard: per
predictable term, cross-validated fold accuracies, the majority-class
baseline over the working table, and the rounded report.  `stdev` models
`np.std` (an irrational-valued float computation; only its rounding is
reported). -/
def evalOne (n_estimators random_state : ℕ) (tbl : List (String → ℚ))
    (cross_val_score : CrossValFn) (stdev : List ℚ → ℚ) (cv_folds : ℕ)
    (target_col : String) : EvalScores :=
  let y := targetVector tbl target_col
  let scores := cross_val_score n_estimators random_state
    (featureMatrix tbl target_col) y cv_folds
  let majority_class := (argmaxPair (uniqueCounts y)).1
  let baseline := (y.count majority_class : ℚ) / (y.length : ℚ)
  { accuracy := round3 (listMean scores)
    std := round3 (stdev scores)
    baseline := round3 baseline
    lift := round3 (listMean scores - baseline) }

def evaluateCore (n_estimators random_state : ℕ) (tbl : List (String → ℚ))
    (cross_val_score : CrossValFn) (stdev : List ℚ → ℚ) (cv_folds : ℕ) :
    List (String × EvalScores) :=
  TERM_COLUMNS.map fun target_col =>
    (target_col, evalOne n_estimators random_state tbl cross_val_score stdev cv_folds target_col)

/-- `TermPredictor.evaluate`: guarded by `self.data is None`, not by the
fitted flag. -/
def TermPredictor.evaluate (p : TermPredictor) (cross_val_score : CrossValFn)
    (stdev : List ℚ → ℚ) (cv_folds : ℕ) : Except String (List (String × EvalScores)) :=
  match p.data with
  | none => .error "No data loaded. Call fit() first."
  | some tbl =>
      .ok (evaluateCore p.n_estimators p.random_state tbl cross_val_score stdev cv_folds)

/-- `np.argsort(importances)[::-1]`: indices sorted ascending by value
(stably), then reversed. -/
def argsortDesc (l : List ℚ) : List ℕ :=
  (sortLe (fun i j => decide (l.getD i 0 ≤ l.getD j 0)) (List.range l.length)).reverse

/-- `TermPredictor.feature_importance`: fitted guard, then per target the
top five features by importance. -/
def TermPredictor.feature_importance (p : TermPredictor) :
    Except String (List (String × List (String × ℚ))) :=
  if !p._is_fitted then .error "Model not fitted. Call fit() first."
  else
    .ok (TERM_COLUMNS.map fun target_col =>
      let feature_cols := FEATURE_COLUMNS.filter fun c => c ≠ target_col
      let importances := (p.models target_col).feature_importances_
      let sorted_idx := argsortDesc importances
      (target_col, (sorted_idx.take 5).map fun idx =>
        (feature_cols.getD idx "", round3 (importances.getD idx 0))))

/-- The full output column set of `predict`: predictable plus derived. -/
def ALL_OUTPUT_COLUMNS : List String :=
  TERM_COLUMNS ++ DERIVED_COLUMNS.map fun d => d.1

/-! ## Concrete instances used to exercise the theorems -/

/-- A fixed classifier value standing for one fitted forest. -/
def demoRF : RFClassifier :=
  { classes_ := [0, 1]
    predict := fun _ => 1
    predict_proba := fun _ => [1/4, 3/4]
    feature_importances_ := [1/2, 1/2] }

def demoModels : String → RFClassifier := fun _ => demoRF

def demoMedians : String → ℚ := fun _ => 0

def demoTrain : TrainFn := fun _ _ _ _ => demoRF

def demoCv : CrossValFn := fun _ _ _ _ _ => [1/2, 1]

def demoStd : List ℚ → ℚ := fun _ => 0

/-- A three-row working table with constant rows. -/
def demoTbl : List (String → ℚ) := [fun _ => 1, fun _ => 0, fun _ => 1]

/-- A corpus row from an association list; unlisted columns are missing. -/
def mkRow (ps : List (String × CellVal)) : RawRow :=
  fun c => (ps.lookup c).getD CellVal.missing

/-- A five-row corpus (all rows identical) with every taxonomy column
populated. -/
def demoCorpus : List RawRow :=
  List.replicate 5 (mkRow
    [("Change Of Control", CellVal.str "yes"),
     ("Anti-Assignment", CellVal.str "no"),
     ("Revenue/Profit Sharing", CellVal.str "yes"),
     ("Ip Ownership Assignment", CellVal.str "no"),
     ("Non-Transferable License", CellVal.str "yes"),
     ("Post-Termination Services", CellVal.str "no"),
     ("Audit Rights", CellVal.str "yes"),
     ("Cap On Liability", CellVal.str "no"),
     ("Renewal Term (Days)", CellVal.num 365),
     ("Notice Period To Terminate Renewal", CellVal.num 30)])

/-- The state produced by fitting a fresh predictor on `demoCorpus`. -/
def demoFitted : TermPredictor :=
  match (TermPredictor.init 100 42).fit demoTrain (some demoCorpus) with
  | .ok st => st
  | .error _ => TermPredictor.init 100 42

/-! ## Helper lemmas on rounding -/

theorem roundHalfEven_intCast (n : ℤ) : roundHalfEven (n : ℚ) = n := by
  have h : ((n : ℚ) - ((n : ℤ) : ℚ)) < 1/2 := by norm_num
  simp [roundHalfEven, Int.floor_intCast, h]

theorem round3_round3 (q : ℚ) : round3 (round3 q) = round3 q := by
  unfold round3
  rw [div_mul_cancel₀ _ (by norm_num : (1000 : ℚ) ≠ 0), roundHalfEven_intCast]

theorem round3_one : round3 1 = 1 := by
  norm_num [round3, roundHalfEven]

theorem le_roundHalfEven {q : ℚ} {n : ℤ} (h : (n : ℚ) ≤ q) : n ≤ roundHalfEven q := by
  have hf : n ≤ ⌊q⌋ := Int.le_floor.2 h
  simp only [roundHalfEven]
  split_ifs <;> omega

theorem roundHalfEven_le_of_le {q : ℚ} {n : ℤ} (h : q ≤ (n : ℚ)) : roundHalfEven q ≤ n := by
  have hf : ⌊q⌋ ≤ n := by
    have := Int.floor_le_floor h
    simpa using this
  have key : ¬ (q - ((⌊q⌋ : ℤ) : ℚ) < 1/2) → ⌊q⌋ < n := by
    intro hr
    rcases lt_or_eq_of_le hf with h' | h'
    · exact h'
    · exfalso
      apply hr
      rw [h']
      have : q - (n : ℚ) ≤ 0 := sub_nonpos.2 h
      linarith
  simp only [roundHalfEven]
  split_ifs with h1 h2 h3
  · exact hf
  · have := key h1; omega
  · exact hf
  · have := key h1; omega

theorem round3_nonneg {q : ℚ} (h : 0 ≤ q) : 0 ≤ round3 q := by
  unfold round3
  have h0 : ((0 : ℤ) : ℚ) ≤ q * 1000 := by positivity
  have := le_roundHalfEven h0
  have hc : (0 : ℚ) ≤ (roundHalfEven (q * 1000) : ℚ) := by exact_mod_cast this
  positivity

theorem round3_le_one {q : ℚ} (h : q ≤ 1) : round3 q ≤ 1 := by
  unfold round3
  have h1000 : q * 1000 ≤ ((1000 : ℤ) : ℚ) := by push_cast; linarith
  have := roundHalfEven_le_of_le h1000
  rw [div_le_one (by norm_num : (0 : ℚ) < 1000)]
  exact_mod_cast this

/-- Every value produced by `round3` is an integer multiple of 1/1000. -/
theorem round3_quantized (q : ℚ) : ∃ m : ℤ, round3 q = (m : ℚ) / 1000 :=
  ⟨roundHalfEven (q * 1000), rfl⟩

/-! ## Helper lemmas on association-list lookup -/

theorem lookup_eq_none_iff {β : Type} (ps : List (String × β)) (c : String) :
    ps.lookup c = none ↔ c ∉ ps.map Prod.fst := by
  induction ps with
  | nil => simp
  | cons p ps ih =>
      obtain ⟨k, v⟩ := p
      by_cases h : c = k
      · subst h
        simp [List.lookup]
      · simp [List.lookup, beq_false_of_ne h, h, ih]

theorem lookupAppend_some {β : Type} {l₁ : List (String × β)} (l₂ : List (String × β))
    {c : String} {v : β} (h : l₁.lookup c = some v) : (l₁ ++ l₂).lookup c = some v := by
  induction l₁ with
  | nil => simp [List.lookup] at h
  | cons p ps ih =>
      obtain ⟨k, w⟩ := p
      by_cases hck : c = k
      · subst hck
        simp [List.lookup] at h ⊢
        exact h
      · simp [List.lookup, beq_false_of_ne hck] at h ⊢
        exact ih h

theorem lookupAppend_none {β : Type} {l₁ : List (String × β)} (l₂ : List (String × β))
    {c : String} (h : l₁.lookup c = none) : (l₁ ++ l₂).lookup c = l₂.lookup c := by
  induction l₁ with
  | nil => simp
  | cons p ps ih =>
      obtain ⟨k, w⟩ := p
      by_cases hck : c = k
      · subst hck
        simp [List.lookup] at h
      · simp only [List.cons_append, List.lookup, beq_false_of_ne hck] at h ⊢
        exact ih h

theorem lookup_map_pair {β : Type} (l : List String) (g : String → β) (c : String)
    (hc : c ∈ l) : (l.map fun t => (t, g t)).lookup c = some (g c) := by
  induction l with
  | nil => cases hc
  | cons t ts ih =>
      by_cases h : c = t
      · subst h
        simp [List.lookup]
      · rcases List.mem_cons.1 hc with h' | h'
        · exact absurd h' h
        · simp [List.lookup, beq_false_of_ne h]
          exact ih h'

theorem map_fst_pairs {β : Type} (l : List String) (g : String → β) :
    ((l.map fun t => (t, g t)).map Prod.fst) = l := by
  rw [List.map_map, show (Prod.fst ∘ fun t => (t, g t)) = id from rfl, List.map_id]

/-! ## Helper lemmas on sorting, argmax and the majority class -/

theorem mem_insertLe {le : α → α → Bool} {x a : α} {l : List α} :
    a ∈ insertLe le x l ↔ a ∈ x :: l := by
  induction l with
  | nil => simp [insertLe]
  | cons y ys ih =>
      unfold insertLe
      by_cases h : le y x
      · simp only [h, if_true, List.mem_cons] at *
        tauto
      · simp [h]

theorem mem_sortLe {le : α → α → Bool} {a : α} {l : List α} :
    a ∈ sortLe le l ↔ a ∈ l := by
  induction l with
  | nil => simp [sortLe]
  | cons x xs ih =>
      unfold sortLe
      rw [mem_insertLe]
      simp [ih]

theorem foldl_argmax_spec (start : ℤ × ℕ) (ps : List (ℤ × ℕ)) :
    (ps.foldl (fun acc q => if acc.2 < q.2 then q else acc) start ∈ start :: ps) ∧
    start.2 ≤ (ps.foldl (fun acc q => if acc.2 < q.2 then q else acc) start).2 ∧
    ∀ p ∈ ps, p.2 ≤ (ps.foldl (fun acc q => if acc.2 < q.2 then q else acc) start).2 := by
  induction ps generalizing start with
  | nil => simp
  | cons q qs ih =>
      simp only [List.foldl_cons]
      obtain ⟨h1, h2, h3⟩ := ih (if start.2 < q.2 then q else start)
      have hnext : start.2 ≤ (if start.2 < q.2 then q else start).2 := by
        by_cases hc : start.2 < q.2 <;> simp [hc] <;> omega
      have hq : q.2 ≤ (if start.2 < q.2 then q else start).2 := by
        by_cases hc : start.2 < q.2 <;> simp [hc] <;> omega
      refine ⟨?_, le_trans hnext h2, ?_⟩
      · rcases List.mem_cons.1 h1 with h | h
        · rw [h]
          by_cases hc : start.2 < q.2 <;> simp [hc]
        · simp [List.mem_cons, h]
      · intro p hp
        rcases List.mem_cons.1 hp with h | h
        · rw [h]
          exact le_trans hq h2
        · exact h3 p h

theorem argmaxPair_spec (l : List (ℤ × ℕ)) (hl : l ≠ []) :
    argmaxPair l ∈ l ∧ ∀ p ∈ l, p.2 ≤ (argmaxPair l).2 := by
  match l with
  | [] => exact absurd rfl hl
  | p :: ps =>
      unfold argmaxPair
      obtain ⟨h1, _, h3⟩ := foldl_argmax_spec p ps
      refine ⟨h1, ?_⟩
      intro q hq
      rcases List.mem_cons.1 hq with h | h
      · rw [h]
        exact (foldl_argmax_spec p ps).2.1
      · exact h3 q h

theorem uniqueCounts_count {y : List ℤ} {p : ℤ × ℕ} (hp : p ∈ uniqueCounts y) :
    p.2 = y.count p.1 := by
  unfold uniqueCounts at hp
  rcases List.mem_map.1 hp with ⟨v, _, rfl⟩
  rfl

theorem mem_uniqueCounts {y : List ℤ} {v : ℤ} (hv : v ∈ y) :
    (v, y.count v) ∈ uniqueCounts y := by
  unfold uniqueCounts
  exact List.mem_map.2 ⟨v, mem_sortLe.2 (List.mem_dedup.2 hv), rfl⟩

theorem uniqueCounts_ne_nil {y : List ℤ} (hy : y ≠ []) : uniqueCounts y ≠ [] := by
  obtain ⟨a, ha⟩ := List.exists_mem_of_ne_nil y hy
  intro h
  have hmem : a ∈ sortLe (fun a b => decide (a ≤ b)) y.dedup :=
    mem_sortLe.2 (List.mem_dedup.2 ha)
  unfold uniqueCounts at h
  rw [List.map_eq_nil_iff.1 h] at hmem
  cases hmem

/-- The value picked by the argmax over `uniqueCounts` has maximal count. -/
theorem majority_count_max (y : List ℤ) (hy : y ≠ []) (v : ℤ) :
    y.count v ≤ y.count (argmaxPair (uniqueCounts y)).1 := by
  obtain ⟨hmem, hmax⟩ := argmaxPair_spec _ (uniqueCounts_ne_nil hy)
  have hsnd : (argmaxPair (uniqueCounts y)).2 = y.count (argmaxPair (uniqueCounts y)).1 :=
    uniqueCounts_count hmem
  by_cases hv : v ∈ y
  · have := hmax _ (mem_uniqueCounts hv)
    simpa [hsnd] using this
  · simp [List.count_eq_zero.2 hv]

/-! ## Helper lemmas on means -/

theorem listMean_nonneg (l : List ℚ) (h : ∀ x ∈ l, 0 ≤ x) : 0 ≤ listMean l :=
  div_nonneg (List.sum_nonneg h) (Nat.cast_nonneg _)

theorem listMean_le_one (l : List ℚ) (hne : l ≠ []) (h : ∀ x ∈ l, x ≤ 1) :
    listMean l ≤ 1 := by
  unfold listMean
  have hlen : (0 : ℚ) < (l.length : ℚ) := by
    exact_mod_cast List.length_pos.2 hne
  rw [div_le_one hlen]
  have := List.sum_le_card_nsmul l 1 h
  simpa using this

/-! ## Key-set structure of `predictCore` -/

/-- The first phase always carries an entry for a predictable column not
supplied in the known terms. -/
theorem termPredictions_lookup (models : String → RFClassifier) (medians : String → ℚ)
    (known : List (String × ℤ)) (t : String) (ht : t ∈ TERM_COLUMNS)
    (hk : known.lookup t = none) :
    (termPredictions models medians known).lookup t
      = some (predictOne models medians known t) := by
  unfold termPredictions
  refine lookup_map_pair _ (predictOne models medians known) _ ?_
  refine List.mem_filter.2 ⟨ht, ?_⟩
  simp [hk]

/-- Case analysis of the derived phase against the first phase's results:
the single derived column is skipped when supplied, resolved from the known
source value with probability 1 when the source is supplied, and resolved
from the source's predicted value and probability otherwise. -/
theorem derivedPredictions_eq (models : String → RFClassifier) (medians : String → ℚ)
    (known : List (String × ℤ)) :
    derivedPredictions known (termPredictions models medians known)
      = match known.lookup "Uncapped Liability" with
        | some _ => []
        | none =>
            match known.lookup "Cap On Liability" with
            | some v => [("Uncapped Liability", ((1 : ℤ) - v, round3 1))]
            | none => [("Uncapped Liability",
                (1 - (predictOne models medians known "Cap On Liability").1,
                 round3 (predictOne models medians known "Cap On Liability").2))] := by
  unfold derivedPredictions
  simp only [DERIVED_COLUMNS, List.filterMap_cons, List.filterMap_nil]
  rcases hUL : known.lookup "Uncapped Liability" with _ | w
  · rcases hCOL : known.lookup "Cap On Liability" with _ | v
    · have hlk := termPredictions_lookup models medians known "Cap On Liability"
        (by decide) hCOL
      simp [hUL, hCOL, hlk]
    · simp [hUL, hCOL]
  · simp [hUL]

theorem predictCore_keys (models : String → RFClassifier) (medians : String → ℚ)
    (known : List (String × ℤ)) :
    (predictCore models medians known).map Prod.fst
      = ALL_OUTPUT_COLUMNS.filter fun c => (known.lookup c).isNone := by
  simp only [predictCore, ALL_OUTPUT_COLUMNS]
  rw [List.map_append, List.filter_append]
  congr 1
  · unfold termPredictions
    exact map_fst_pairs _ _
  · rw [derivedPredictions_eq]
    simp only [DERIVED_COLUMNS, List.map_cons, List.map_nil]
    rcases hUL : known.lookup "Uncapped Liability" with _ | w
    · rcases hCOL : known.lookup "Cap On Liability" with _ | v <;>
        simp [hUL, List.filter]
    · simp [hUL, List.filter]

/-! ## Range of the bucket codes -/

theorem renewalDaysCode_mem (v : ℚ) : renewalDaysCode v ∈ ([0, 1, 2, 3, 4] : List ℕ) := by
  unfold renewalDaysCode
  split_ifs <;> simp

theorem noticeDaysCode_mem (v : ℚ) : noticeDaysCode v ∈ ([0, 1, 2, 3] : List ℕ) := by
  unfold noticeDaysCode
  split_ifs <;> simp

/-! ## Claim theorems -/

/-- C3: in `bucket_renewal_term.bucket` the string `"3 years"` extracts the
first integer token 3, but the year-unit guard `'year' in val if
isinstance(val, str) else False` is evaluated after `val` was reassigned to
`int(nums[0])`, so it is always false: 3 is treated as a day count and
bucketed as short (code 1) instead of 3 years = 1095 days (code 3), which
is what the comment `# If it mentions "years", multiply` and the claim
intend. -/
theorem renewal_year_bug :
    bucketRenewalTerm (CellVal.str "3 years") = 1 ∧
    bucketRenewalTerm (CellVal.num 1095) = 3 :=
  ⟨by decide, by decide⟩

/-- Below the overflow bound the error-aware renewal encoder agrees with
its total fragment: the OverflowError path is the only divergence. -/
theorem bucketRenewalTermE_below (v : CellVal)
    (h : ∀ s n, v = CellVal.str s → extractFirstNat (pyStrip (pyLower s)) = some n →
      n < PY_FLOAT_OVERFLOW) :
    bucketRenewalTermE v = Except.ok (bucketRenewalTerm v) := by
  cases v with
  | missing => rfl
  | num q => rfl
  | str s =>
      unfold bucketRenewalTermE bucketRenewalTerm
      rcases hx : extractFirstNat (pyStrip (pyLower s)) with _ | n
      · simp [hx]
      · have := h s n rfl hx
        simp [hx, not_le.2 this]

set_option maxRecDepth 40000 in
/-- C4 (code bug): the notice encoder is total and unparseable strings
default to code 0, but the renewal encoder is not total as the claim and
the spec's totality contract require: for a digit token at or beyond the
double range, `float(int(nums[0]))` raises an OverflowError that the
`except (ValueError, TypeError)` clause does not catch, so the encoder
raises instead of returning a code.  The theorem evaluates the embedding
with the error path (`bucketRenewalTermE`) at a 310-digit token and the
total behaviour of both encoders at a benign unparseable string. -/
theorem renewal_overflow_bug :
    bucketRenewalTermE (CellVal.str overflowToken) = Except.error "OverflowError" ∧
    bucketRenewalTerm (CellVal.str "n/a") = 0 ∧
    bucketNoticePeriod (CellVal.str "n/a") = 0 :=
  ⟨rfl, by decide, by decide⟩

/-- C6: on a freshly constructed (never-fitted) predictor, `predict`,
`evaluate` and `feature_importance` each fail with the explicit error of
their guard and return no result. -/
theorem unfitted_operations_error (n r : ℕ) (known : List (String × ℤ))
    (cv : CrossValFn) (sd : List ℚ → ℚ) (folds : ℕ) :
    (TermPredictor.init n r).predict known
        = .error "Model not fitted. Call fit() first." ∧
    (TermPredictor.init n r).evaluate cv sd folds
        = .error "No data loaded. Call fit() first." ∧
    (TermPredictor.init n r).feature_importance
        = .error "Model not fitted. Call fit() first." :=
  ⟨rfl, rfl, rfl⟩

/-- C7 counterexample: a five-row corpus — far below any "dozens" training
floor — is trained on without any error: `fit` succeeds and marks the
predictor fitted. -/
theorem fit_small_corpus_trains_cex :
    (buildWorkingTable demoCorpus).length = 5 ∧
    ∃ st, (TermPredictor.init 100 42).fit demoTrain (some demoCorpus) = Except.ok st ∧
      st._is_fitted = true :=
  ⟨by decide, demoFitted, rfl, rfl⟩

/-- C7 amended: a missing corpus file is reported as an error to the
caller; but `fit` enforces no minimum-row-count floor — the five-row
corpus (far below "dozens" of rows) is silently trained on.  Failure
modes of the external libraries on other degenerate loadable corpora
(pandas' KeyError when a taxonomy column is absent, sklearn's error on
zero surviving training rows) are outside this embedding and outside
this claim's amendment. -/
theorem fit_missing_file_and_no_floor (n r : ℕ) :
    (∀ tf : TrainFn,
      (TermPredictor.init n r).fit tf none = .error "FileNotFoundError") ∧
    ((buildWorkingTable demoCorpus).length = 5 ∧
      ∃ st, (TermPredictor.init n r).fit demoTrain (some demoCorpus) = Except.ok st ∧
        st._is_fitted = true) :=
  ⟨fun _ => rfl, by decide, _, rfl, rfl⟩

/-- C1: for any fitted model state and any known-term mapping with distinct
keys drawn from the predictable-plus-derived columns, the predict result's
key list is exactly the predictable-plus-derived columns minus the supplied
keys, its size is `|predictable ∪ derived| - |known|`, and no supplied key
appears in it. -/
theorem predict_completeness (models : String → RFClassifier) (medians : String → ℚ)
    (known : List (String × ℤ))
    (hnd : (known.map Prod.fst).Nodup)
    (hsub : ∀ c ∈ known.map Prod.fst, c ∈ ALL_OUTPUT_COLUMNS) :
    (predictCore models medians known).map Prod.fst
        = ALL_OUTPUT_COLUMNS.filter (fun c => (known.lookup c).isNone) ∧
    (predictCore models medians known).length
        = ALL_OUTPUT_COLUMNS.length - known.length ∧
    ∀ c ∈ known.map Prod.fst, c ∉ (predictCore models medians known).map Prod.fst := by
  have hkeys := predictCore_keys models medians known
  refine ⟨hkeys, ?_, ?_⟩
  · have hlen1 : (predictCore models medians known).length
        = (ALL_OUTPUT_COLUMNS.filter fun c => (known.lookup c).isNone).length := by
      rw [← List.length_map (predictCore models medians known) Prod.fst, hkeys]
    have hcongr : (ALL_OUTPUT_COLUMNS.filter fun c => (known.lookup c).isNone)
        = ALL_OUTPUT_COLUMNS.filter fun c => !(decide (c ∈ known.map Prod.fst)) := by
      apply List.filter_congr
      intro c _
      rcases hl : known.lookup c with _ | v
      · have hnm := (lookup_eq_none_iff known c).1 hl
        simp [hnm]
      · have hc : c ∈ known.map Prod.fst := by
          by_contra hcn
          have := (lookup_eq_none_iff known c).2 hcn
          simp [hl] at this
        simp [hc]
    have hperm := List.filter_append_perm
      (fun c => decide (c ∈ known.map Prod.fst)) ALL_OUTPUT_COLUMNS
    have hsum : (ALL_OUTPUT_COLUMNS.filter fun c => decide (c ∈ known.map Prod.fst)).length
        + (ALL_OUTPUT_COLUMNS.filter fun c => !decide (c ∈ known.map Prod.fst)).length
        = ALL_OUTPUT_COLUMNS.length := by
      have := hperm.length_eq
      simpa [List.length_append] using this
    have hnodupAll : ALL_OUTPUT_COLUMNS.Nodup := by decide
    have hfiltnodup :
        (ALL_OUTPUT_COLUMNS.filter fun c => decide (c ∈ known.map Prod.fst)).Nodup :=
      hnodupAll.filter _
    have hmemiff : ∀ a,
        a ∈ (ALL_OUTPUT_COLUMNS.filter fun c => decide (c ∈ known.map Prod.fst))
          ↔ a ∈ known.map Prod.fst := by
      intro a
      constructor
      · intro h
        have := (List.mem_filter.1 h).2
        simpa using this
      · intro h
        exact List.mem_filter.2 ⟨hsub a h, by simpa using h⟩
    have hpermk : List.Perm
        (ALL_OUTPUT_COLUMNS.filter fun c => decide (c ∈ known.map Prod.fst))
        (known.map Prod.fst) :=
      (List.perm_ext_iff_of_nodup hfiltnodup hnd).2 hmemiff
    have hlenk : (ALL_OUTPUT_COLUMNS.filter fun c => decide (c ∈ known.map Prod.fst)).length
        = known.length := by
      simpa [List.length_map] using hpermk.length_eq
    rw [hlen1, hcongr]
    omega
  · intro c hc
    rw [hkeys]
    intro hmem
    have h2 := (List.mem_filter.1 hmem).2
    have hnone : known.lookup c = none := by
      simpa [Option.isNone_iff_eq_none] using h2
    exact (lookup_eq_none_iff known c).1 hnone hc

/-- C1 witness: the spec's scenario `{Audit Rights: 1, Anti-Assignment: 0}`
yields `|predictable ∪ derived| - 2` result entries. -/
theorem predict_completeness_witness :
    (predictCore demoModels demoMedians [("Audit Rights", 1), ("Anti-Assignment", 0)]).length
      = ALL_OUTPUT_COLUMNS.length - 2 := by
  have h := predict_completeness demoModels demoMedians
    [("Audit Rights", 1), ("Anti-Assignment", 0)] (by decide) (by decide)
  simpa using h.2.1

/-- The probability reported for a predicted term is already rounded, so
rounding it again (as the derived-column phase does) changes nothing. -/
theorem round3_predictOne_snd (models : String → RFClassifier) (medians : String → ℚ)
    (known : List (String × ℤ)) (t : String) :
    round3 (predictOne models medians known t).2 = (predictOne models medians known t).2 := by
  simp only [predictOne]
  exact round3_round3 _

/-- C2: if `Cap On Liability` is supplied with value `v` and `Uncapped
Liability` is not supplied, the result contains `Uncapped Liability` with
prediction `1 - v` and probability exactly 1; and if neither is supplied,
`Uncapped Liability` is reported as one minus the predicted
`Cap On Liability` value with exactly the source's reported probability. -/
theorem derived_consistency (models : String → RFClassifier) (medians : String → ℚ)
    (known : List (String × ℤ)) (v : ℤ) :
    (known.lookup "Cap On Liability" = some v →
     known.lookup "Uncapped Liability" = none →
       (predictCore models medians known).lookup "Uncapped Liability"
         = some (1 - v, 1)) ∧
    (known.lookup "Cap On Liability" = none →
     known.lookup "Uncapped Liability" = none →
       ∃ p q, (predictCore models medians known).lookup "Cap On Liability" = some (p, q) ∧
         (predictCore models medians known).lookup "Uncapped Liability"
           = some (1 - p, q)) := by
  have hpc : predictCore models medians known
      = termPredictions models medians known
        ++ derivedPredictions known (termPredictions models medians known) := rfl
  have hULterm : (termPredictions models medians known).lookup "Uncapped Liability"
      = none := by
    rw [lookup_eq_none_iff]
    unfold termPredictions
    rw [map_fst_pairs]
    intro hmem
    have h1 := (List.mem_filter.1 hmem).1
    revert h1
    decide
  constructor
  · intro hCOL hUL
    have hD := derivedPredictions_eq models medians known
    rw [hUL, hCOL] at hD
    rw [hpc, lookupAppend_none _ hULterm, hD]
    simp [List.lookup, round3_one]
  · intro hCOL hUL
    have hD := derivedPredictions_eq models medians known
    rw [hUL, hCOL] at hD
    refine ⟨(predictOne models medians known "Cap On Liability").1,
      (predictOne models medians known "Cap On Liability").2, ?_, ?_⟩
    · have hterm := termPredictions_lookup models medians known "Cap On Liability"
        (by decide) hCOL
      rw [hpc]
      have := lookupAppend_some (derivedPredictions known (termPredictions models medians known)) hterm
      simpa using this
    · rw [hpc, lookupAppend_none _ hULterm, hD]
      simp [List.lookup, round3_predictOne_snd]

/-- C2 witness: supplying `Cap On Liability = 1` yields
`Uncapped Liability = 0` with probability exactly 1. -/
theorem derived_consistency_witness :
    (predictCore demoModels demoMedians [("Cap On Liability", 1)]).lookup "Uncapped Liability"
      = some (0, 1) := by
  have h := (derived_consistency demoModels demoMedians [("Cap On Liability", 1)] 1).1
    (by decide) (by decide)
  simpa using h

/-- C5 counterexample: a column containing the non-missing value
`"maybe"` fails the subset qualification, so the encoder leaves the column
entirely unchanged: `"maybe"` survives as a non-missing value rather than
becoming missing. -/
theorem encode_boolean_other_value_cex :
    encodeBoolCol [CellVal.str "yes", CellVal.str "maybe"]
      = [CellVal.str "yes", CellVal.str "maybe"] ∧
    CellVal.str "maybe" ≠ CellVal.missing :=
  ⟨by decide, by decide⟩

/-- C5 amended: a column qualifies for encoding exactly when its
non-missing values are drawn from {yes, no, ''} (case-insensitive); a
qualifying column — which includes every column drawn from exactly
{yes, no} — is rewritten cell-by-cell with yes to 1, no to 0, and the
empty string (like a missing cell) to missing; but a column containing
any non-missing value outside {yes, no, ''} is left entirely unchanged —
such a value remains as it is, it does not become missing. -/
theorem encode_boolean_spec (cells : List CellVal) :
    ((∀ w ∈ cells, w ≠ CellVal.missing →
        ∃ s, w = CellVal.str s ∧
          (pyLower s = "yes" ∨ pyLower s = "no" ∨ pyLower s = "")) →
      encodeBoolCol cells = cells.map fun w =>
        match w with
        | CellVal.str s =>
            if pyLower s = "yes" then CellVal.num 1
            else if pyLower s = "no" then CellVal.num 0
            else CellVal.missing
        | _ => CellVal.missing) ∧
    ((∃ w ∈ cells, w ≠ CellVal.missing ∧ yesNoCellAllowed w = false) →
      encodeBoolCol cells = cells) := by
  constructor
  · intro h
    have hq : yesNoQualifies cells = true := by
      unfold yesNoQualifies
      rw [List.all_eq_true]
      intro w hw
      by_cases hm : w = CellVal.missing
      · subst hm
        rfl
      · rcases h w hw hm with ⟨s, rfl, hs⟩
        rcases hs with hs | hs | hs <;> simp [yesNoCellAllowed, hs]
    simp only [encodeBoolCol, hq, if_true]
    apply List.map_congr_left
    intro w hw
    by_cases hm : w = CellVal.missing
    · subst hm
      rfl
    · rcases h w hw hm with ⟨s, rfl, hs⟩
      rcases hs with hs | hs | hs
      · simp [encodeYesNoCell, hs]
      · have hne : pyLower s ≠ "yes" := by
          rw [hs]
          decide
        simp [encodeYesNoCell, hs, hne]
      · have hne : pyLower s ≠ "yes" := by
          rw [hs]
          decide
        have hne2 : pyLower s ≠ "no" := by
          rw [hs]
          decide
        simp [encodeYesNoCell, hs, hne, hne2]
  · rintro ⟨w, hw, _, hbad⟩
    have hq : yesNoQualifies cells = false := by
      unfold yesNoQualifies
      rw [List.all_eq_false]
      exact ⟨w, hw, by simp [hbad]⟩
    simp [encodeBoolCol, hq]

/-- C5 witness: a yes/no/empty column is rewritten (with the empty string
becoming missing), and a column with a stray numeric value is left
unchanged. -/
theorem encode_boolean_spec_witness :
    encodeBoolCol [CellVal.str "Yes", CellVal.str "no", CellVal.str "", CellVal.missing]
      = [CellVal.num 1, CellVal.num 0, CellVal.missing, CellVal.missing] ∧
    encodeBoolCol [CellVal.str "yes", CellVal.num 5]
      = [CellVal.str "yes", CellVal.num 5] := by
  refine ⟨?_, (encode_boolean_spec _).2
    ⟨CellVal.num 5, by simp, fun h => CellVal.noConfusion h, rfl⟩⟩
  have h := (encode_boolean_spec
      [CellVal.str "Yes", CellVal.str "no", CellVal.str "", CellVal.missing]).1
    (by
      intro w hw hnm
      fin_cases hw
      · exact ⟨"Yes", rfl, Or.inl (by decide)⟩
      · exact ⟨"no", rfl, Or.inr (Or.inl (by decide))⟩
      · exact ⟨"", rfl, Or.inr (Or.inr (by decide))⟩
      · exact absurd rfl hnm)
  rw [h]
  decide

/-- Every probability emitted by the per-target predict phase is rounded to
three decimals, hence an integer multiple of 1/1000. -/
theorem predictOne_snd_quant (models : String → RFClassifier) (medians : String → ℚ)
    (known : List (String × ℤ)) (t : String) :
    ∃ m : ℤ, (predictOne models medians known t).2 = (m : ℚ) / 1000 := by
  simp only [predictOne]
  exact round3_quantized _

/-- C9: fitting two predictors constructed with the same hyperparameters
and seed on the same corpus (with the same deterministic training function,
which is what sklearn's fixed `random_state` provides) yields states whose
predictions agree on every input. -/
theorem fit_predict_deterministic (n r : ℕ) (tf : TrainFn) (file : Option (List RawRow))
    (known : List (String × ℤ)) (st₁ st₂ : TermPredictor)
    (h₁ : (TermPredictor.init n r).fit tf file = Except.ok st₁)
    (h₂ : (TermPredictor.init n r).fit tf file = Except.ok st₂) :
    st₁.predict known = st₂.predict known := by
  have h : st₁ = st₂ := Except.ok.inj (h₁.symm.trans h₂)
  rw [h]

/-- C9 witness: the theorem applied to the five-row corpus fit. -/
theorem fit_predict_deterministic_witness :
    demoFitted.predict [] = demoFitted.predict [] :=
  fit_predict_deterministic 100 42 demoTrain (some demoCorpus) [] demoFitted demoFitted
    rfl rfl

/-- C10: every probability in a predict result and every accuracy, std,
baseline, and lift in an evaluate result is a `round3` image, hence an
exact integer multiple of 1/1000. -/
theorem outputs_quantized :
    (∀ (models : String → RFClassifier) (medians : String → ℚ)
       (known : List (String × ℤ)) (c : String) (pq : ℤ × ℚ),
       (c, pq) ∈ predictCore models medians known →
         ∃ m : ℤ, pq.2 = (m : ℚ) / 1000) ∧
    (∀ (n r : ℕ) (tbl : List (String → ℚ)) (cv : CrossValFn) (sd : List ℚ → ℚ)
       (folds : ℕ) (t : String) (e : EvalScores),
       (t, e) ∈ evaluateCore n r tbl cv sd folds →
         (∃ m : ℤ, e.accuracy = (m : ℚ) / 1000) ∧ (∃ m : ℤ, e.std = (m : ℚ) / 1000) ∧
         (∃ m : ℤ, e.baseline = (m : ℚ) / 1000) ∧ (∃ m : ℤ, e.lift = (m : ℚ) / 1000)) := by
  constructor
  · intro models medians known c pq hmem
    have hpc : predictCore models medians known
        = termPredictions models medians known
          ++ derivedPredictions known (termPredictions models medians known) := rfl
    rw [hpc] at hmem
    rcases List.mem_append.1 hmem with hmem | hmem
    · unfold termPredictions at hmem
      rcases List.mem_map.1 hmem with ⟨t, _, heq⟩
      injection heq with h1 h2
      subst h1
      subst h2
      exact predictOne_snd_quant models medians known _
    · rw [derivedPredictions_eq] at hmem
      rcases hUL : known.lookup "Uncapped Liability" with _ | w
      · rw [hUL] at hmem
        rcases hCOL : known.lookup "Cap On Liability" with _ | v
        · rw [hCOL] at hmem
          simp only [List.mem_singleton] at hmem
          injection hmem with h1 h2
          subst h1
          subst h2
          exact ⟨_, rfl⟩
        · rw [hCOL] at hmem
          simp only [List.mem_singleton] at hmem
          injection hmem with h1 h2
          subst h1
          subst h2
          exact ⟨_, rfl⟩
      · rw [hUL] at hmem
        simp at hmem
  · intro n r tbl cv sd folds t e hmem
    unfold evaluateCore at hmem
    rcases List.mem_map.1 hmem with ⟨t', _, heq⟩
    injection heq with h1 h2
    subst h1
    subst h2
    exact ⟨⟨_, rfl⟩, ⟨_, rfl⟩, ⟨_, rfl⟩, ⟨_, rfl⟩⟩

/-- C10 witness: one predict entry and one evaluate entry, both quantized. -/
theorem outputs_quantized_witness :
    (∃ m : ℤ, (predictOne demoModels demoMedians [] "Change Of Control").2
      = (m : ℚ) / 1000) ∧
    (∃ m : ℤ, (evalOne 100 42 [] demoCv demoStd 5 "Change Of Control").accuracy
      = (m : ℚ) / 1000) := by
  constructor
  · apply outputs_quantized.1 demoModels demoMedians [] "Change Of Control"
    show _ ∈ termPredictions demoModels demoMedians []
        ++ derivedPredictions [] (termPredictions demoModels demoMedians [])
    apply List.mem_append_left
    unfold termPredictions
    exact List.mem_map.2 ⟨"Change Of Control", List.mem_filter.2 ⟨by decide, by decide⟩, rfl⟩
  · exact (outputs_quantized.2 100 42 [] demoCv demoStd 5 "Change Of Control" _
      (List.mem_map.2 ⟨"Change Of Control", by decide, rfl⟩)).1

/-- C8: every evaluate entry has baseline and accuracy in [0, 1] (the
latter given accuracy fold scores in [0, 1], which sklearn's accuracy
scoring guarantees); the baseline is the relative frequency of a
maximal-count (majority) class of the target column over the working
table; and the lift is accuracy minus baseline, all reported at three
decimal places. -/
theorem evaluate_soundness (n r : ℕ) (tbl : List (String → ℚ)) (cv : CrossValFn)
    (sd : List ℚ → ℚ) (folds : ℕ) (t : String) (e : EvalScores)
    (hmem : (t, e) ∈ evaluateCore n r tbl cv sd folds)
    (htbl : tbl ≠ [])
    (hne : cv n r (featureMatrix tbl t) (targetVector tbl t) folds ≠ [])
    (hsc : ∀ x ∈ cv n r (featureMatrix tbl t) (targetVector tbl t) folds,
      0 ≤ x ∧ x ≤ 1) :
    (0 ≤ e.baseline ∧ e.baseline ≤ 1) ∧
    (0 ≤ e.accuracy ∧ e.accuracy ≤ 1) ∧
    e.accuracy = round3 (listMean (cv n r (featureMatrix tbl t) (targetVector tbl t) folds)) ∧
    (∃ maj : ℤ,
      (∀ v : ℤ, (targetVector tbl t).count v ≤ (targetVector tbl t).count maj) ∧
      e.baseline = round3 (((targetVector tbl t).count maj : ℚ)
        / ((targetVector tbl t).length : ℚ)) ∧
      e.lift = round3 (listMean (cv n r (featureMatrix tbl t) (targetVector tbl t) folds)
        - ((targetVector tbl t).count maj : ℚ) / ((targetVector tbl t).length : ℚ))) := by
  unfold evaluateCore at hmem
  rcases List.mem_map.1 hmem with ⟨t', _, heq⟩
  injection heq with h1 h2
  subst h1
  subst h2
  have hylen : targetVector tbl t' ≠ [] := by
    intro h
    exact htbl (List.map_eq_nil_iff.1 h)
  have hcount_le : ∀ v : ℤ, (targetVector tbl t').count v
      ≤ (targetVector tbl t').count (argmaxPair (uniqueCounts (targetVector tbl t'))).1 :=
    majority_count_max _ hylen
  have hblb : (0 : ℚ) ≤
      ((targetVector tbl t').count (argmaxPair (uniqueCounts (targetVector tbl t'))).1 : ℚ)
        / ((targetVector tbl t').length : ℚ) := by positivity
  have hbub :
      ((targetVector tbl t').count (argmaxPair (uniqueCounts (targetVector tbl t'))).1 : ℚ)
        / ((targetVector tbl t').length : ℚ) ≤ 1 := by
    rw [div_le_one (by exact_mod_cast List.length_pos.2 hylen)]
    exact_mod_cast List.count_le_length _ _
  have hmb : 0 ≤ listMean (cv n r (featureMatrix tbl t') (targetVector tbl t') folds) :=
    listMean_nonneg _ (fun x hx => (hsc x hx).1)
  have hm1 : listMean (cv n r (featureMatrix tbl t') (targetVector tbl t') folds) ≤ 1 :=
    listMean_le_one _ hne (fun x hx => (hsc x hx).2)
  exact ⟨⟨round3_nonneg hblb, round3_le_one hbub⟩,
    ⟨round3_nonneg hmb, round3_le_one hm1⟩, rfl,
    ⟨(argmaxPair (uniqueCounts (targetVector tbl t'))).1, hcount_le, rfl, rfl⟩⟩

/-- C8 witness: the theorem applied to a concrete three-row table with
fold scores 1/2 and 1. -/
theorem evaluate_soundness_witness :
    (0 ≤ (evalOne 100 42 demoTbl demoCv demoStd 5 "Change Of Control").baseline ∧
      (evalOne 100 42 demoTbl demoCv demoStd 5 "Change Of Control").baseline ≤ 1) ∧
    (0 ≤ (evalOne 100 42 demoTbl demoCv demoStd 5 "Change Of Control").accuracy ∧
      (evalOne 100 42 demoTbl demoCv demoStd 5 "Change Of Control").accuracy ≤ 1) := by
  have h := evaluate_soundness 100 42 demoTbl demoCv demoStd 5 "Change Of Control"
    (evalOne 100 42 demoTbl demoCv demoStd 5 "Change Of Control")
    (List.mem_map.2 ⟨"Change Of Control", by decide, rfl⟩)
    (by simp [demoTbl])
    (by simp [demoCv])
    (by
      intro x hx
      simp only [demoCv, List.mem_cons, List.not_mem_nil, or_false] at hx
      rcases hx with rfl | rfl <;> norm_num)
  exact ⟨h.1, h.2.1⟩
